import Mathlib

/-!
Verification of the torus-cli daemon sources against its specification.

The Go sources are shallowly embedded: each handler or method becomes a pure
Lean function over an explicit environment record holding the results of its
external calls (registry requests, crypto operations, file-system calls), and
returns the trace of externally visible actions it performed together with its
result.  Machine-level concerns (JSON wire encoding, real HTTP) are abstracted
to the data the handlers actually inspect.
-/

namespace Torus

/-! ## Session state (daemon/session)

A session holds the current identity, passphrase and auth token.  `s.Set`
populates all three; `s.Logout` clears them.  An unset token reads as `""`. -/

structure SessionState where
  id : Option String
  passphrase : Option String
  token : Option String
deriving DecidableEq, Repr

def emptySession : SessionState := ⟨none, none, none⟩

/-- `session.Token()`: the stored token, or `""` when unset. -/
def SessionState.tokenStr (s : SessionState) : String :=
  s.token.getD ""

/-! ## loginRoute (daemon/routes, session routes file) -/

structure LoginCreds where
  email : String
  passphrase : String
deriving DecidableEq, Repr

/-- Results of the external calls `loginRoute` makes, in the order the handler
makes them: body decoding, `client.Tokens.PostLogin`, `crypto.DeriveLoginHMAC`,
`client.Tokens.PostAuth`, `client.Users.GetSelf`.  Salt, tokens, HMAC and the
fetched self (by its ID) are abstracted as strings. -/
structure LoginEnv where
  decodeResult : Except String LoginCreds
  postLogin : String → Except String (String × String)
  deriveHMAC : String → String → String → Except String String
  postAuth : String → String → Except String String
  getSelf : String → Except String String

/-- Externally visible steps of the login handler. -/
inductive LoginEvent
  | postLogin (email : String)
  | deriveHMAC
  | postAuth
  | getSelf
  | dbSet (selfID : String)
  | sessionSet
  | respond (status : Nat)
  | respondErr
deriving DecidableEq, Repr

inductive LoginResp
  | errorResp (msg : String)
  | badRequest
  | noContent
deriving DecidableEq, Repr

structure LoginResult where
  trace : List LoginEvent
  session : SessionState
  db : List String
  resp : LoginResp
deriving DecidableEq, Repr

/-- Shallow embedding of `loginRoute` from the session-routes file: decode the
request body; reject empty email or passphrase with 400; then
`PostLogin`, `DeriveLoginHMAC`, `PostAuth`, `GetSelf` in order, aborting with an
error response on any failure; on success `db.Set(self)`, then
`s.Set(self.ID, creds.Passphrase, authToken)`, then 204. -/
def loginRoute (env : LoginEnv) (s : SessionState) (db : List String) : LoginResult :=
  match env.decodeResult with
  | .error e => ⟨[.respondErr], s, db, .errorResp e⟩
  | .ok creds =>
    if creds.email = "" ∨ creds.passphrase = "" then
      ⟨[.respond 400], s, db, .badRequest⟩
    else
      match env.postLogin creds.email with
      | .error e => ⟨[.postLogin creds.email, .respondErr], s, db, .errorResp e⟩
      | .ok (salt, loginToken) =>
        match env.deriveHMAC creds.passphrase salt loginToken with
        | .error e =>
          ⟨[.postLogin creds.email, .deriveHMAC, .respondErr], s, db, .errorResp e⟩
        | .ok hmac =>
          match env.postAuth loginToken hmac with
          | .error e =>
            ⟨[.postLogin creds.email, .deriveHMAC, .postAuth, .respondErr], s, db, .errorResp e⟩
          | .ok authToken =>
            match env.getSelf authToken with
            | .error e =>
              ⟨[.postLogin creds.email, .deriveHMAC, .postAuth, .getSelf, .respondErr],
               s, db, .errorResp e⟩
            | .ok selfUser =>
              ⟨[.postLogin creds.email, .deriveHMAC, .postAuth, .getSelf,
                 .dbSet selfUser, .sessionSet, .respond 204],
               ⟨some selfUser, some creds.passphrase, some authToken⟩,
               db ++ [selfUser], .noContent⟩

/-- One of the five fallible steps of the login sequence fails (request
decoding, `PostLogin`, HMAC derivation, `PostAuth`, or `GetSelf`); the
empty-credentials 400 path is not a step failure. -/
def loginStepFails (env : LoginEnv) : Bool :=
  match env.decodeResult with
  | .error _ => true
  | .ok creds =>
    if creds.email = "" ∨ creds.passphrase = "" then false
    else
      match env.postLogin creds.email with
      | .error _ => true
      | .ok (salt, loginToken) =>
        match env.deriveHMAC creds.passphrase salt loginToken with
        | .error _ => true
        | .ok hmac =>
          match env.postAuth loginToken hmac with
          | .error _ => true
          | .ok authToken =>
            match env.getSelf authToken with
            | .error _ => true
            | .ok _ => false

end Torus

namespace Torus

/-- Claim C1 (as stated): a successful login run would perform the session
populate before the DB persist.  This is false: the handler calls
`db.Set(self)` before `s.Set(...)`.  Concrete run with every step succeeding
shows the trace disagrees with the claimed order. -/
theorem loginRoute_claimed_order_false :
    (loginRoute
      { decodeResult := .ok ⟨"a@b", "p"⟩
        postLogin := fun _ => .ok ("salt1", "lt1")
        deriveHMAC := fun _ _ _ => .ok "hmac1"
        postAuth := fun _ _ => .ok "auth1"
        getSelf := fun _ => .ok "self1" }
      emptySession []).trace ≠
    [.postLogin "a@b", .deriveHMAC, .postAuth, .getSelf,
     .sessionSet, .dbSet "self1", .respond 204] := by
  decide

/-- Claim C1 (amended): for every login request whose email and passphrase are
both non-empty, when every step succeeds the handler performs, in order:
`PostLogin`, HMAC derivation, `PostAuth`, `GetSelf`, persist self to the local
DB, populate the session as a user session, and respond 204 No Content. -/
theorem loginRoute_success_order (env : LoginEnv) (s : SessionState) (db : List String)
    (e p salt lt hm tok selfUser : String)
    (hdec : env.decodeResult = .ok ⟨e, p⟩)
    (he : e ≠ "") (hp : p ≠ "")
    (hlogin : env.postLogin e = .ok (salt, lt))
    (hhmac : env.deriveHMAC p salt lt = .ok hm)
    (hauth : env.postAuth lt hm = .ok tok)
    (hself : env.getSelf tok = .ok selfUser) :
    loginRoute env s db =
      ⟨[.postLogin e, .deriveHMAC, .postAuth, .getSelf,
         .dbSet selfUser, .sessionSet, .respond 204],
       ⟨some selfUser, some p, some tok⟩, db ++ [selfUser], .noContent⟩ := by
  simp [loginRoute, hdec, he, hp, hlogin, hhmac, hauth, hself]

theorem loginRoute_success_order_witness :
    loginRoute
      { decodeResult := .ok ⟨"a@b", "p"⟩
        postLogin := fun _ => .ok ("salt1", "lt1")
        deriveHMAC := fun _ _ _ => .ok "hmac1"
        postAuth := fun _ _ => .ok "auth1"
        getSelf := fun _ => .ok "self1" }
      emptySession [] =
      ⟨[.postLogin "a@b", .deriveHMAC, .postAuth, .getSelf,
         .dbSet "self1", .sessionSet, .respond 204],
       ⟨some "self1", some "p", some "auth1"⟩, ["self1"], .noContent⟩ :=
  loginRoute_success_order _ _ _ "a@b" "p" "salt1" "lt1" "hmac1" "auth1" "self1"
    rfl (by decide) (by decide) rfl rfl rfl rfl

/-- Claim C2: if any step of the login sequence fails (request decoding,
`PostLogin`, HMAC derivation, `PostAuth`, or `GetSelf`), the handler responds
with an error and the session is left empty, with nothing written to the DB. -/
theorem loginRoute_failure_leaves_session_empty (env : LoginEnv) (db : List String)
    (h : loginStepFails env = true) :
    (loginRoute env emptySession db).session = emptySession ∧
    (loginRoute env emptySession db).db = db ∧
    ∃ m, (loginRoute env emptySession db).resp = .errorResp m := by
  unfold loginStepFails at h
  cases hdec : env.decodeResult with
  | error e => exact ⟨by simp [loginRoute, hdec], by simp [loginRoute, hdec], e, by simp [loginRoute, hdec]⟩
  | ok creds =>
    rw [hdec] at h
    by_cases hemp : creds.email = "" ∨ creds.passphrase = ""
    · simp [hemp] at h
    · simp only [hemp, if_false] at h
      cases hlogin : env.postLogin creds.email with
      | error e =>
        exact ⟨by simp [loginRoute, hdec, hemp, hlogin], by simp [loginRoute, hdec, hemp, hlogin],
          e, by simp [loginRoute, hdec, hemp, hlogin]⟩
      | ok pr =>
        obtain ⟨salt, lt⟩ := pr
        rw [hlogin] at h
        dsimp only at h
        cases hhmac : env.deriveHMAC creds.passphrase salt lt with
        | error e =>
          exact ⟨by simp [loginRoute, hdec, hemp, hlogin, hhmac],
            by simp [loginRoute, hdec, hemp, hlogin, hhmac],
            e, by simp [loginRoute, hdec, hemp, hlogin, hhmac]⟩
        | ok hm =>
          rw [hhmac] at h
          dsimp only at h
          cases hauth : env.postAuth lt hm with
          | error e =>
            exact ⟨by simp [loginRoute, hdec, hemp, hlogin, hhmac, hauth],
              by simp [loginRoute, hdec, hemp, hlogin, hhmac, hauth],
              e, by simp [loginRoute, hdec, hemp, hlogin, hhmac, hauth]⟩
          | ok tok =>
            rw [hauth] at h
            dsimp only at h
            cases hself : env.getSelf tok with
            | error e =>
              exact ⟨by simp [loginRoute, hdec, hemp, hlogin, hhmac, hauth, hself],
                by simp [loginRoute, hdec, hemp, hlogin, hhmac, hauth, hself],
                e, by simp [loginRoute, hdec, hemp, hlogin, hhmac, hauth, hself]⟩
            | ok selfUser =>
              rw [hself] at h
              dsimp only at h
              exact absurd h (by simp)

theorem loginRoute_failure_leaves_session_empty_witness :
    (loginRoute
      { decodeResult := .ok ⟨"a@b", "p"⟩
        postLogin := fun _ => .ok ("salt1", "lt1")
        deriveHMAC := fun _ _ _ => .ok "hmac1"
        postAuth := fun _ _ => .error "bad credentials"
        getSelf := fun _ => .ok "self1" }
      emptySession []).session = emptySession ∧
    (loginRoute
      { decodeResult := .ok ⟨"a@b", "p"⟩
        postLogin := fun _ => .ok ("salt1", "lt1")
        deriveHMAC := fun _ _ _ => .ok "hmac1"
        postAuth := fun _ _ => .error "bad credentials"
        getSelf := fun _ => .ok "self1" }
      emptySession []).db = [] ∧
    ∃ m, (loginRoute
      { decodeResult := .ok ⟨"a@b", "p"⟩
        postLogin := fun _ => .ok ("salt1", "lt1")
        deriveHMAC := fun _ _ _ => .ok "hmac1"
        postAuth := fun _ _ => .error "bad credentials"
        getSelf := fun _ => .ok "self1" }
      emptySession []).resp = .errorResp m :=
  loginRoute_failure_leaves_session_empty _ [] (by decide)

end Torus

namespace Torus

/-! ## logoutRoute (daemon/routes, session routes file) -/

/-- Result of `client.Tokens.Delete`: success, a typed `registry.Error`
carrying an HTTP status code, or any other error. -/
inductive DeleteResult
  | ok
  | registryError (statusCode : Nat) (msg : String)
  | otherError (msg : String)
deriving DecidableEq, Repr

inductive LogoutResp
  | status (code : Nat)
  | errorResp
  | noResponse
deriving DecidableEq, Repr

/-- Shallow embedding of `logoutRoute`: 404 when the session token is empty;
otherwise delete the token at the registry and branch on the kind of error.
A `registry.Error` with code below 400 matches neither case of the inner
switch, so no response is written (`noResponse`). -/
def logoutRoute (deleteResult : DeleteResult) (s : SessionState) :
    SessionState × LogoutResp :=
  if s.tokenStr = "" then
    (s, .status 404)
  else
    match deleteResult with
    | .registryError code _ =>
      if code ≥ 500 then (s, .errorResp)
      else if code ≥ 400 then (emptySession, .status 204)
      else (s, .noResponse)
    | .ok => (emptySession, .status 204)
    | .otherError _ => (s, .errorResp)

/-! ## Daemon.Run and Daemon.Shutdown (daemon package) -/

structure DaemonState where
  hasShutdown : Bool
deriving DecidableEq, Repr

/-- Results of the four cleanup calls `Shutdown` makes. -/
structure ShutdownEnv where
  unlockResult : Except String Unit
  proxyCloseResult : Except String Unit
  dbCloseResult : Except String Unit
  updatesStopResult : Except String Unit

inductive ShutdownEvent
  | unlock
  | proxyClose
  | dbClose
  | updatesStop
deriving DecidableEq, Repr

structure ShutdownResult where
  state : DaemonState
  trace : List ShutdownEvent
  err : Option String
deriving DecidableEq, Repr

/-- Shallow embedding of `Daemon.Shutdown`: return nil immediately when
`hasShutdown` is already set; otherwise set it and run, in order,
`lock.Unlock()`, `proxy.Close()`, `db.Close()`, `updates.Stop()`, stopping at
the first failure.  The trace records the calls attempted. -/
def shutdown (env : ShutdownEnv) (d : DaemonState) : ShutdownResult :=
  if d.hasShutdown then ⟨d, [], none⟩
  else
    match env.unlockResult with
    | .error e => ⟨⟨true⟩, [.unlock], some ("Could not unlock: " ++ e)⟩
    | .ok _ =>
      match env.proxyCloseResult with
      | .error e => ⟨⟨true⟩, [.unlock, .proxyClose], some ("Could not stop http proxy: " ++ e)⟩
      | .ok _ =>
        match env.dbCloseResult with
        | .error e =>
          ⟨⟨true⟩, [.unlock, .proxyClose, .dbClose], some ("Could not close db: " ++ e)⟩
        | .ok _ =>
          match env.updatesStopResult with
          | .error e =>
            ⟨⟨true⟩, [.unlock, .proxyClose, .dbClose, .updatesStop],
             some ("Could not stop update checker: " ++ e)⟩
          | .ok _ => ⟨⟨true⟩, [.unlock, .proxyClose, .dbClose, .updatesStop], none⟩

end Torus

namespace Torus

/-- Claim C3: with a populated session, a 5xx registry error on token delete
leaves the session intact and sends an error response; a 4xx registry error
clears the session and returns 204 as on success; success clears the session
and returns 204. -/
theorem logoutRoute_status_code_policy (s : SessionState) (t : String)
    (htok : s.token = some t) (hne : t ≠ "") :
    (∀ code msg, 500 ≤ code →
      logoutRoute (.registryError code msg) s = (s, .errorResp)) ∧
    (∀ code msg, 400 ≤ code → code < 500 →
      logoutRoute (.registryError code msg) s = (emptySession, .status 204)) ∧
    logoutRoute .ok s = (emptySession, .status 204) := by
  have hs : s.tokenStr = t := by simp [SessionState.tokenStr, htok]
  refine ⟨fun code msg h5 => ?_, fun code msg h4 h4' => ?_, ?_⟩
  · simp [logoutRoute, hs, hne, h5]
  · simp [logoutRoute, hs, hne, h4, Nat.not_le.mpr h4']
  · simp [logoutRoute, hs, hne]

theorem logoutRoute_status_code_policy_witness :
    logoutRoute (.registryError 503 "oops") ⟨some "u1", some "p", some "tok1"⟩ =
      (⟨some "u1", some "p", some "tok1"⟩, .errorResp) ∧
    logoutRoute (.registryError 404 "gone") ⟨some "u1", some "p", some "tok1"⟩ =
      (emptySession, .status 204) ∧
    logoutRoute .ok ⟨some "u1", some "p", some "tok1"⟩ = (emptySession, .status 204) :=
  ⟨(logoutRoute_status_code_policy _ "tok1" rfl (by decide)).1 503 "oops" (by decide),
   (logoutRoute_status_code_policy _ "tok1" rfl (by decide)).2.1 404 "gone"
     (by decide) (by decide),
   (logoutRoute_status_code_policy _ "tok1" rfl (by decide)).2.2⟩

/-- Claim C4 (as stated): on a first shutdown the order would be stop updates,
close proxy, close DB, release lockfile.  False: with every cleanup call
succeeding, the code unlocks the lockfile first and stops the updates engine
last. -/
theorem shutdown_claimed_order_false :
    (shutdown ⟨.ok (), .ok (), .ok (), .ok ()⟩ ⟨false⟩).trace ≠
      [.updatesStop, .proxyClose, .dbClose, .unlock] := by
  decide

/-- Claim C4 (amended): on every first shutdown the daemon performs, in order,
release the PID lockfile, close the proxy listener, close the DB, stop the
updates worker — each step only after the previous one succeeded, aborting
with an error at the first failure. -/
theorem shutdown_first_order (env : ShutdownEnv) (d : DaemonState)
    (h : d.hasShutdown = false) :
    (∀ e, env.unlockResult = .error e →
      shutdown env d = ⟨⟨true⟩, [.unlock], some ("Could not unlock: " ++ e)⟩) ∧
    (∀ e, env.unlockResult = .ok () → env.proxyCloseResult = .error e →
      shutdown env d =
        ⟨⟨true⟩, [.unlock, .proxyClose], some ("Could not stop http proxy: " ++ e)⟩) ∧
    (∀ e, env.unlockResult = .ok () → env.proxyCloseResult = .ok () →
      env.dbCloseResult = .error e →
      shutdown env d =
        ⟨⟨true⟩, [.unlock, .proxyClose, .dbClose], some ("Could not close db: " ++ e)⟩) ∧
    (∀ e, env.unlockResult = .ok () → env.proxyCloseResult = .ok () →
      env.dbCloseResult = .ok () → env.updatesStopResult = .error e →
      shutdown env d =
        ⟨⟨true⟩, [.unlock, .proxyClose, .dbClose, .updatesStop],
         some ("Could not stop update checker: " ++ e)⟩) ∧
    (env.unlockResult = .ok () → env.proxyCloseResult = .ok () →
      env.dbCloseResult = .ok () → env.updatesStopResult = .ok () →
      shutdown env d =
        ⟨⟨true⟩, [.unlock, .proxyClose, .dbClose, .updatesStop], none⟩) := by
  refine ⟨fun e h1 => ?_, fun e h1 h2 => ?_, fun e h1 h2 h3 => ?_,
    fun e h1 h2 h3 h4 => ?_, fun h1 h2 h3 h4 => ?_⟩ <;>
    simp [shutdown, h, h1]
  · simp [h2]
  · simp [h2, h3]
  · simp [h2, h3, h4]
  · simp [h2, h3, h4]

theorem shutdown_first_order_witness :
    shutdown ⟨.error "held elsewhere", .ok (), .ok (), .ok ()⟩ ⟨false⟩ =
      ⟨⟨true⟩, [.unlock], some ("Could not unlock: " ++ "held elsewhere")⟩ ∧
    shutdown ⟨.ok (), .ok (), .ok (), .ok ()⟩ ⟨false⟩ =
      ⟨⟨true⟩, [.unlock, .proxyClose, .dbClose, .updatesStop], none⟩ :=
  ⟨(shutdown_first_order ⟨.error "held elsewhere", .ok (), .ok (), .ok ()⟩ ⟨false⟩ rfl).1
      "held elsewhere" rfl,
   (shutdown_first_order ⟨.ok (), .ok (), .ok (), .ok ()⟩ ⟨false⟩ rfl).2.2.2.2
      rfl rfl rfl rfl⟩

/-- Claim C10: shutdown is idempotent.  After any call to `Shutdown` the
`hasShutdown` flag is set, so every subsequent call returns nil, performs no
cleanup call, and leaves the daemon state unchanged. -/
theorem shutdown_idempotent (env₁ env₂ : ShutdownEnv) (d : DaemonState) :
    shutdown env₂ (shutdown env₁ d).state = ⟨(shutdown env₁ d).state, [], none⟩ := by
  have hset : (shutdown env₁ d).state.hasShutdown = true := by
    unfold shutdown
    by_cases h : d.hasShutdown
    · simp [h]
    · simp only [h, if_false]
      cases env₁.unlockResult with
      | error e => rfl
      | ok u =>
        cases env₁.proxyCloseResult with
        | error e => rfl
        | ok u =>
          cases env₁.dbCloseResult with
          | error e => rfl
          | ok u =>
            cases env₁.updatesStopResult with
            | error e => rfl
            | ok u => rfl
  have hdone : ∀ (env : ShutdownEnv) (d' : DaemonState), d'.hasShutdown = true →
      shutdown env d' = ⟨d', [], none⟩ := fun env d' h' => by simp [shutdown, h']
  exact hdone env₂ _ hset

end Torus

namespace Torus

/-! ## Daemon.Run (daemon package) -/

/-- The environment `Daemon.Run` consults: the four `os.LookupEnv` reads
(`none` = variable unset), the two logins through `d.logic.Session.Login`, the
two decoding steps for the machine token id and secret, and the results of
`updates.Start` and `proxy.Listen`. -/
structure RunEnv where
  torusEmail : Option String
  torusPassword : Option String
  torusTokenID : Option String
  torusTokenSecret : Option String
  userLoginResult : String → String → Except String Unit
  decodeID : String → Except String String
  decodeSecret : String → Except String String
  machineLoginResult : String → String → Except String Unit
  updatesStartResult : Except String Unit
  listenResult : Except String Unit

/-- Login attempts and server starts, in the order `Run` performs them.  A
login event marks the start of the corresponding attempt (the code logs
"Attempting to login" right there, before decoding). -/
inductive RunEvent
  | userLogin (email password : String)
  | machineLogin (tokenID tokenSecret : String)
  | updatesStart
  | listen
deriving DecidableEq, Repr

def runListenStage (env : RunEnv) (tr : List RunEvent) :
    List RunEvent × Except String Unit :=
  (tr ++ [.updatesStart, .listen], env.listenResult)

def runMachineStage (env : RunEnv) (tr : List RunEvent) :
    List RunEvent × Except String Unit :=
  match env.torusTokenID, env.torusTokenSecret with
  | some tid, some tsec =>
    let tr' := tr ++ [.machineLogin tid tsec]
    match env.decodeID tid with
    | .error e => (tr', .error e)
    | .ok id =>
      match env.decodeSecret tsec with
      | .error e => (tr', .error e)
      | .ok sec =>
        match env.machineLoginResult id sec with
        | .error e => (tr', .error e)
        | .ok _ => runListenStage env tr'
  | _, _ => runListenStage env tr

/-- Shallow embedding of `Daemon.Run`: user login when both `TORUS_EMAIL` and
`TORUS_PASSWORD` are set; machine login when both `TORUS_TOKEN_ID` and
`TORUS_TOKEN_SECRET` are set; any login or decode failure returns that error
at once; then `updates.Start` (whose failure is only logged) and
`proxy.Listen`. -/
def run (env : RunEnv) : List RunEvent × Except String Unit :=
  match env.torusEmail, env.torusPassword with
  | some e, some p =>
    match env.userLoginResult e p with
    | .error err => ([.userLogin e p], .error err)
    | .ok _ => runMachineStage env [.userLogin e p]
  | _, _ => runMachineStage env []

/-- The user-login stage does not abort: either the pair of user variables is
not fully set, or the login succeeded. -/
def userStageOk (env : RunEnv) : Prop :=
  match env.torusEmail, env.torusPassword with
  | some e, some p => env.userLoginResult e p = .ok ()
  | _, _ => True

end Torus

namespace Torus

/-- Splitting a list around its last element: when `b` does not occur in `L`,
the only way to write `L ++ [b]` as `pre ++ b :: post` is `pre = L`,
`post = []`. -/
theorem eq_last_split {α : Type} {b : α} {L : List α} :
    ∀ {pre post : List α}, b ∉ L → L ++ [b] = pre ++ b :: post →
      pre = L ∧ post = [] := by
  induction L with
  | nil =>
    intro pre post _ h
    cases pre with
    | nil =>
      simp only [List.nil_append] at h
      exact ⟨rfl, (List.cons_eq_cons.mp h).2.symm⟩
    | cons c pre' =>
      simp only [List.nil_append, List.cons_append] at h
      obtain ⟨_, h2⟩ := List.cons_eq_cons.mp h
      exact absurd h2.symm (by simp)
  | cons y L' ih =>
    intro pre post hb h
    have hby : b ≠ y := fun he => hb (he ▸ List.mem_cons_self _ _)
    have hbL' : b ∉ L' := fun he => hb (List.mem_cons_of_mem _ he)
    cases pre with
    | nil =>
      simp only [List.cons_append, List.nil_append] at h
      exact absurd (List.cons_eq_cons.mp h).1 hby.symm
    | cons c pre' =>
      simp only [List.cons_append] at h
      obtain ⟨h1, h2⟩ := List.cons_eq_cons.mp h
      obtain ⟨hp, hq⟩ := ih hbL' h2
      exact ⟨by rw [h1, hp], hq⟩

/-- The three possible outcomes of the machine-login stage: an aborting
failure right after the login attempt, or the full path through
`updates.Start` and `proxy.Listen`, with or without a machine login. -/
theorem runMachineStage_shape (env : RunEnv) (tr : List RunEvent) :
    (∃ tid tsec e, env.torusTokenID = some tid ∧ env.torusTokenSecret = some tsec ∧
      runMachineStage env tr = (tr ++ [.machineLogin tid tsec], .error e)) ∨
    (∃ tid tsec, env.torusTokenID = some tid ∧ env.torusTokenSecret = some tsec ∧
      runMachineStage env tr =
        (tr ++ [.machineLogin tid tsec, .updatesStart, .listen], env.listenResult)) ∨
    ((env.torusTokenID = none ∨ env.torusTokenSecret = none) ∧
      runMachineStage env tr = (tr ++ [.updatesStart, .listen], env.listenResult)) := by
  cases htid : env.torusTokenID with
  | none =>
    exact Or.inr (Or.inr ⟨Or.inl rfl, by
      simp [runMachineStage, runListenStage, htid]⟩)
  | some tid =>
    cases htsec : env.torusTokenSecret with
    | none =>
      exact Or.inr (Or.inr ⟨Or.inr rfl, by
        simp [runMachineStage, runListenStage, htid, htsec]⟩)
    | some tsec =>
      cases hdid : env.decodeID tid with
      | error e =>
        exact Or.inl ⟨tid, tsec, e, rfl, rfl, by
          simp [runMachineStage, htid, htsec, hdid]⟩
      | ok id =>
        cases hdsec : env.decodeSecret tsec with
        | error e =>
          exact Or.inl ⟨tid, tsec, e, rfl, rfl, by
            simp [runMachineStage, htid, htsec, hdid, hdsec]⟩
        | ok sec =>
          cases hml : env.machineLoginResult id sec with
          | error e =>
            exact Or.inl ⟨tid, tsec, e, rfl, rfl, by
              simp [runMachineStage, htid, htsec, hdid, hdsec, hml]⟩
          | ok u =>
            exact Or.inr (Or.inl ⟨tid, tsec, rfl, rfl, by
              simp [runMachineStage, runListenStage, htid, htsec, hdid, hdsec, hml]⟩)

/-- The machine-login stage of `Run` aborts with error `err`: the token id
fails to decode, or the secret fails to decode, or the login itself fails. -/
def machineStageFails (env : RunEnv) (tid tsec err : String) : Prop :=
  env.decodeID tid = .error err ∨
  (∃ id, env.decodeID tid = .ok id ∧ env.decodeSecret tsec = .error err) ∨
  (∃ id sec, env.decodeID tid = .ok id ∧ env.decodeSecret tsec = .ok sec ∧
    env.machineLoginResult id sec = .error err)

theorem run_userStage (env : RunEnv) (h : userStageOk env) :
    (run env = runMachineStage env [] ∧
      (env.torusEmail = none ∨ env.torusPassword = none)) ∨
    ∃ e p, env.torusEmail = some e ∧ env.torusPassword = some p ∧
      run env = runMachineStage env [RunEvent.userLogin e p] := by
  unfold userStageOk at h
  cases hm : env.torusEmail with
  | none =>
    refine Or.inl ⟨?_, Or.inl rfl⟩
    unfold run
    rw [hm]
  | some e =>
    cases hp : env.torusPassword with
    | none =>
      refine Or.inl ⟨?_, Or.inr rfl⟩
      unfold run
      rw [hm, hp]
    | some p =>
      rw [hm, hp] at h
      dsimp only at h
      refine Or.inr ⟨e, p, rfl, rfl, ?_⟩
      unfold run
      rw [hm, hp]
      dsimp only
      rw [h]

theorem runMachineStage_attempted (env : RunEnv) (tr : List RunEvent)
    (tid tsec : String) (htid : env.torusTokenID = some tid)
    (htsec : env.torusTokenSecret = some tsec) :
    RunEvent.machineLogin tid tsec ∈ (runMachineStage env tr).1 := by
  rcases runMachineStage_shape env tr with
    ⟨tid', tsec', e, h1, h2, heq⟩ | ⟨tid', tsec', h1, h2, heq⟩ | ⟨hnone, heq⟩
  · rw [htid] at h1; rw [htsec] at h2
    cases Option.some.inj h1; cases Option.some.inj h2
    rw [heq]; simp
  · rw [htid] at h1; rw [htsec] at h2
    cases Option.some.inj h1; cases Option.some.inj h2
    rw [heq]; simp
  · rcases hnone with h | h
    · rw [htid] at h; exact absurd h (by simp)
    · rw [htsec] at h; exact absurd h (by simp)

theorem runMachineStage_listen_after (env : RunEnv) (tr : List RunEvent)
    (x : RunEvent) (hx : x ∈ tr ∨
      ∃ tid tsec, env.torusTokenID = some tid ∧ env.torusTokenSecret = some tsec ∧
        x = .machineLogin tid tsec)
    (hnl : RunEvent.listen ∉ tr) :
    ∀ pre post, (runMachineStage env tr).1 = pre ++ .listen :: post → x ∈ pre := by
  intro pre post heq
  rcases runMachineStage_shape env tr with
    ⟨tid', tsec', e, h1, h2, hsh⟩ | ⟨tid', tsec', h1, h2, hsh⟩ | ⟨hnone, hsh⟩
  · rw [hsh] at heq
    dsimp only at heq
    have hmem : RunEvent.listen ∈ tr ++ [RunEvent.machineLogin tid' tsec'] := by
      rw [heq]; simp
    simp only [List.mem_append, List.mem_singleton] at hmem
    rcases hmem with hmem | hmem
    · exact absurd hmem hnl
    · exact absurd hmem (by simp)
  · rw [hsh] at heq
    dsimp only at heq
    have hre : tr ++ [RunEvent.machineLogin tid' tsec', .updatesStart, .listen] =
        (tr ++ [RunEvent.machineLogin tid' tsec', .updatesStart]) ++ [RunEvent.listen] := by
      simp
    rw [hre] at heq
    have hnotin : RunEvent.listen ∉
        tr ++ [RunEvent.machineLogin tid' tsec', .updatesStart] := by
      simp only [List.mem_append, List.mem_cons, List.mem_singleton]
      rintro (h | h | h)
      · exact hnl h
      · exact absurd h (by simp)
      · exact absurd h (by simp)
    obtain ⟨hpre, _⟩ := eq_last_split hnotin heq
    rw [hpre]
    rcases hx with hx | ⟨tid, tsec, htid, htsec, hxeq⟩
    · simp [hx]
    · rw [htid] at h1; rw [htsec] at h2
      cases Option.some.inj h1; cases Option.some.inj h2
      rw [hxeq]; simp
  · rw [hsh] at heq
    dsimp only at heq
    have hre : tr ++ [RunEvent.updatesStart, .listen] =
        (tr ++ [RunEvent.updatesStart]) ++ [RunEvent.listen] := by simp
    rw [hre] at heq
    have hnotin : RunEvent.listen ∉ tr ++ [RunEvent.updatesStart] := by
      simp only [List.mem_append, List.mem_singleton]
      rintro (h | h)
      · exact hnl h
      · exact absurd h (by simp)
    obtain ⟨hpre, _⟩ := eq_last_split hnotin heq
    rw [hpre]
    rcases hx with hx | ⟨tid, tsec, htid, htsec, hxeq⟩
    · simp [hx]
    · rcases hnone with h | h
      · rw [htid] at h; exact absurd h (by simp)
      · rw [htsec] at h; exact absurd h (by simp)

theorem run_eq_no_user (env : RunEnv)
    (h : env.torusEmail = none ∨ env.torusPassword = none) :
    run env = runMachineStage env [] := by
  unfold run
  rcases h with h | h
  · rw [h]
  · cases hm : env.torusEmail with
    | none => rfl
    | some e => rw [h]

theorem runMachineStage_fail (env : RunEnv) (tr : List RunEvent)
    (tid tsec err : String) (htid : env.torusTokenID = some tid)
    (htsec : env.torusTokenSecret = some tsec)
    (hfail : machineStageFails env tid tsec err) :
    runMachineStage env tr = (tr ++ [.machineLogin tid tsec], .error err) := by
  unfold machineStageFails at hfail
  rcases hfail with h | ⟨id, h1, h2⟩ | ⟨id, sec, h1, h2, h3⟩
  · simp [runMachineStage, htid, htsec, h]
  · simp [runMachineStage, htid, htsec, h1, h2]
  · simp [runMachineStage, htid, htsec, h1, h2, h3]

end Torus

namespace Torus

/-- Claim C5: when `TORUS_EMAIL` and `TORUS_PASSWORD` are both set, `Run`
performs a user login with those credentials as its first action, before the
proxy listens; when `TORUS_TOKEN_ID` and `TORUS_TOKEN_SECRET` are both set, a
machine login with that token id and secret is attempted and every listen is
preceded by it; a failed user login or machine-login stage makes `Run` return
that error with the proxy never listening. -/
theorem run_env_driven_logins (env : RunEnv) :
    (∀ e p, env.torusEmail = some e → env.torusPassword = some p →
      (run env).1.head? = some (.userLogin e p)) ∧
    (∀ e p pre post, env.torusEmail = some e → env.torusPassword = some p →
      (run env).1 = pre ++ .listen :: post → RunEvent.userLogin e p ∈ pre) ∧
    (∀ tid tsec, env.torusTokenID = some tid → env.torusTokenSecret = some tsec →
      userStageOk env → RunEvent.machineLogin tid tsec ∈ (run env).1) ∧
    (∀ tid tsec pre post, env.torusTokenID = some tid →
      env.torusTokenSecret = some tsec →
      (run env).1 = pre ++ .listen :: post → RunEvent.machineLogin tid tsec ∈ pre) ∧
    (∀ e p err, env.torusEmail = some e → env.torusPassword = some p →
      env.userLoginResult e p = .error err → run env = ([.userLogin e p], .error err)) ∧
    (∀ tid tsec err, env.torusTokenID = some tid → env.torusTokenSecret = some tsec →
      userStageOk env → machineStageFails env tid tsec err →
      (run env).2 = .error err ∧ RunEvent.listen ∉ (run env).1) := by
  refine ⟨?_, ?_, ?_, ?_, ?_, ?_⟩
  · -- user login attempted first
    intro e p hm hp
    unfold run
    rw [hm, hp]
    dsimp only
    cases hul : env.userLoginResult e p with
    | error err => rfl
    | ok u =>
      dsimp only
      rcases runMachineStage_shape env [RunEvent.userLogin e p] with
        ⟨_, _, _, _, _, hsh⟩ | ⟨_, _, _, _, hsh⟩ | ⟨_, hsh⟩ <;> rw [hsh] <;> simp
  · -- user login precedes every listen
    intro e p pre post hm hp heq
    unfold run at heq
    rw [hm, hp] at heq
    dsimp only at heq
    cases hul : env.userLoginResult e p with
    | error err =>
      rw [hul] at heq
      dsimp only at heq
      have : RunEvent.listen ∈ ([RunEvent.userLogin e p] : List RunEvent) := by
        rw [heq]; simp
      exact absurd this (by simp)
    | ok u =>
      rw [hul] at heq
      dsimp only at heq
      exact runMachineStage_listen_after env [RunEvent.userLogin e p]
        (.userLogin e p) (Or.inl (by simp)) (by simp) pre post heq
  · -- machine login attempted when the user stage passes
    intro tid tsec htid htsec huser
    rcases run_userStage env huser with ⟨hrw, _⟩ | ⟨e, p, _, _, hrw⟩ <;> rw [hrw] <;>
      exact runMachineStage_attempted env _ tid tsec htid htsec
  · -- machine login precedes every listen
    intro tid tsec pre post htid htsec heq
    cases hm : env.torusEmail with
    | none =>
      rw [run_eq_no_user env (Or.inl hm)] at heq
      exact runMachineStage_listen_after env [] _
        (Or.inr ⟨tid, tsec, htid, htsec, rfl⟩) (by simp) pre post heq
    | some e =>
      cases hp : env.torusPassword with
      | none =>
        rw [run_eq_no_user env (Or.inr hp)] at heq
        exact runMachineStage_listen_after env [] _
          (Or.inr ⟨tid, tsec, htid, htsec, rfl⟩) (by simp) pre post heq
      | some p =>
        unfold run at heq
        rw [hm, hp] at heq
        dsimp only at heq
        cases hul : env.userLoginResult e p with
        | error err =>
          rw [hul] at heq
          dsimp only at heq
          have : RunEvent.listen ∈ ([RunEvent.userLogin e p] : List RunEvent) := by
            rw [heq]; simp
          exact absurd this (by simp)
        | ok u =>
          rw [hul] at heq
          dsimp only at heq
          exact runMachineStage_listen_after env [RunEvent.userLogin e p] _
            (Or.inr ⟨tid, tsec, htid, htsec, rfl⟩) (by simp) pre post heq
  · -- failed user login returns the error at once
    intro e p err hm hp hul
    unfold run
    rw [hm, hp]
    dsimp only
    rw [hul]
  · -- failed machine stage returns the error, never listens
    intro tid tsec err htid htsec huser hfail
    rcases run_userStage env huser with ⟨hrw, _⟩ | ⟨e, p, _, _, hrw⟩ <;>
      rw [hrw, runMachineStage_fail env _ tid tsec err htid htsec hfail] <;>
      exact ⟨rfl, by simp⟩

theorem run_env_driven_logins_witness :
    (run
      { torusEmail := some "a@b", torusPassword := some "pw"
        torusTokenID := some "tid1", torusTokenSecret := some "ts1"
        userLoginResult := fun _ _ => .ok ()
        decodeID := fun s => .ok s, decodeSecret := fun s => .ok s
        machineLoginResult := fun _ _ => .ok ()
        updatesStartResult := .ok (), listenResult := .ok () }).1.head? =
      some (.userLogin "a@b" "pw") ∧
    RunEvent.machineLogin "tid1" "ts1" ∈
      (run
        { torusEmail := some "a@b", torusPassword := some "pw"
          torusTokenID := some "tid1", torusTokenSecret := some "ts1"
          userLoginResult := fun _ _ => .ok ()
          decodeID := fun s => .ok s, decodeSecret := fun s => .ok s
          machineLoginResult := fun _ _ => .ok ()
          updatesStartResult := .ok (), listenResult := .ok () }).1 ∧
    run
      { torusEmail := some "a@b", torusPassword := some "pw"
        torusTokenID := some "tid1", torusTokenSecret := some "ts1"
        userLoginResult := fun _ _ => .error "bad password"
        decodeID := fun s => .ok s, decodeSecret := fun s => .ok s
        machineLoginResult := fun _ _ => .ok ()
        updatesStartResult := .ok (), listenResult := .ok () } =
      ([.userLogin "a@b" "pw"], .error "bad password") ∧
    ((run
      { torusEmail := none, torusPassword := none
        torusTokenID := some "tid1", torusTokenSecret := some "ts1"
        userLoginResult := fun _ _ => .ok ()
        decodeID := fun s => .ok s, decodeSecret := fun s => .ok s
        machineLoginResult := fun _ _ => .error "bad machine token"
        updatesStartResult := .ok (), listenResult := .ok () }).2 =
        .error "bad machine token" ∧
      RunEvent.listen ∉
        (run
          { torusEmail := none, torusPassword := none
            torusTokenID := some "tid1", torusTokenSecret := some "ts1"
            userLoginResult := fun _ _ => .ok ()
            decodeID := fun s => .ok s, decodeSecret := fun s => .ok s
            machineLoginResult := fun _ _ => .error "bad machine token"
            updatesStartResult := .ok (), listenResult := .ok () }).1) :=
  ⟨(run_env_driven_logins _).1 "a@b" "pw" rfl rfl,
   (run_env_driven_logins _).2.2.1 "tid1" "ts1" rfl rfl (by simp [userStageOk]),
   (run_env_driven_logins _).2.2.2.2.1 "a@b" "pw" "bad password" rfl rfl rfl,
   (run_env_driven_logins _).2.2.2.2.2 "tid1" "ts1" "bad machine token" rfl rfl
     (by simp [userStageOk])
     (Or.inr (Or.inr ⟨"tid1", "ts1", rfl, rfl, rfl⟩))⟩

end Torus

namespace Torus

/-! ## Machine.CreateToken (daemon/logic) -/

/-- `crypto.EdDSA`, the algorithm recorded in a login public key. -/
def EdDSA : String := "eddsa"

/-- `primitive.MachineTokenActiveState` (the CLI compares token state against
the literal "active"). -/
def MachineTokenActiveState : String := "active"

structure MachineBody where
  orgID : String
  name : String
deriving DecidableEq, Repr

/-- A `machine` envelope. -/
structure Machine where
  id : String
  body : MachineBody
deriving DecidableEq, Repr

/-- `primitive.LoginPublicKey`. -/
structure LoginPublicKey where
  salt : String
  value : String
  alg : String
deriving DecidableEq, Repr

/-- The fields of `primitive.MachineToken` the logic layer sets (timestamps
are dropped: no claim concerns them). -/
structure MachineTokenBody where
  orgID : String
  machineID : String
  publicKey : LoginPublicKey
  master : String
  createdBy : String
  state : String
deriving DecidableEq, Repr

/-- An `envelope.MachineToken`. -/
structure MachineToken where
  id : String
  version : Nat
  body : MachineTokenBody
deriving DecidableEq, Repr

structure MachineTokenCreationSegment where
  token : MachineToken
  keypairs : List String
deriving DecidableEq, Repr

/-- The login keypair derived by `crypto.DeriveLoginKeypair`: its `Salt()` and
`PublicKey()` accessors. -/
structure LoginKeypair where
  salt : String
  publicKey : String
deriving DecidableEq, Repr

/-- Results of the external calls `CreateToken` makes, in order:
`crypto.GenerateSalt`, `crypto.DeriveLoginKeypair(secret, salt)`,
`crypto.CreateMasterKeyObject(secret)`, `identity.NewMutable`,
`sess.Set(...)`, `c.GenerateKeyPairs`, and the keypair packaging
`generateKeypairs`.  The master key object and keypairs stay abstract. -/
structure CreateTokenEnv where
  generateSalt : Except String String
  deriveLoginKeypair : String → String → Except String LoginKeypair
  createMasterKeyObject : String → Except String String
  newMutable : MachineTokenBody → Except String String
  sessSetResult : Except String Unit
  generateKeyPairsResult : Except String String
  genKeypairsResult : String → Except String (List String)
  sessionID : String

/-- Shallow embedding of `Machine.CreateToken`: generate a salt, derive the
login keypair from the secret and salt, create the master key object from the
secret, assemble the `MachineToken` body and envelope, open the ephemeral
machine session, generate and package the keypairs, and return the creation
segment; any failure aborts with that error. -/
def createToken (env : CreateTokenEnv) (machine : Machine) (secret : String) :
    Except String MachineTokenCreationSegment :=
  match env.generateSalt with
  | .error e => .error e
  | .ok salt =>
    match env.deriveLoginKeypair secret salt with
    | .error e => .error e
    | .ok keypair =>
      match env.createMasterKeyObject secret with
      | .error e => .error e
      | .ok masterKey =>
        let tokenBody : MachineTokenBody :=
          { orgID := machine.body.orgID
            machineID := machine.id
            publicKey :=
              { salt := keypair.salt, value := keypair.publicKey, alg := EdDSA }
            master := masterKey
            createdBy := env.sessionID
            state := MachineTokenActiveState }
        match env.newMutable tokenBody with
        | .error e => .error e
        | .ok tokenID =>
          match env.sessSetResult with
          | .error e => .error e
          | .ok _ =>
            match env.generateKeyPairsResult with
            | .error e => .error e
            | .ok kp =>
              match env.genKeypairsResult kp with
              | .error e => .error e
              | .ok keypairs => .ok ⟨⟨tokenID, 1, tokenBody⟩, keypairs⟩

/-! ## Machine.EncodeToken (daemon/logic) -/

/-- Results of the calls `EncodeToken` makes: the membership derivation and
the two posting endpoints (`KeyringMember.Post` for the V1 batch,
`Keyring.Members.Post` per V2 member). -/
structure EncodeTokenEnv where
  createMemberships : Except String (List String × List String)
  postBatch : List String → Except String Unit
  postOne : String → Except String Unit

inductive EncodeEvent
  | batchPost (members : List String)
  | memberPost (member : String)
deriving DecidableEq, Repr

/-- The V2 posting loop of `EncodeToken`: post members one at a time,
returning the first error. -/
def postV2Members (env : EncodeTokenEnv) : List String → List EncodeEvent × Except String Unit
  | [] => ([], .ok ())
  | m :: rest =>
    match env.postOne m with
    | .error e => ([.memberPost m], .error e)
    | .ok _ =>
      let r := postV2Members env rest
      (.memberPost m :: r.1, r.2)

/-- Shallow embedding of `Machine.EncodeToken`: derive the V1 and V2 keyring
memberships; if any V1 members exist, post them as one batch, aborting on
error; then post every V2 member individually, aborting at the first error. -/
def encodeToken (env : EncodeTokenEnv) : List EncodeEvent × Except String Unit :=
  match env.createMemberships with
  | .error e => ([], .error e)
  | .ok (v1, v2) =>
    if v1.isEmpty then
      postV2Members env v2
    else
      match env.postBatch v1 with
      | .error e => ([.batchPost v1], .error e)
      | .ok _ =>
        let r := postV2Members env v2
        (.batchPost v1 :: r.1, r.2)

end Torus

namespace Torus

/-- Claim C6: a successful `CreateToken` returns a token whose body links the
machine's id and org, embeds the login public key derived from the secret
(salt, value, EdDSA algorithm), embeds the master key object sealed under the
secret, and is in the active state. -/
theorem createToken_body_fields (env : CreateTokenEnv) (machine : Machine)
    (secret : String) (seg : MachineTokenCreationSegment)
    (h : createToken env machine secret = .ok seg) :
    seg.token.body.machineID = machine.id ∧
    seg.token.body.orgID = machine.body.orgID ∧
    (∃ salt kp, env.generateSalt = .ok salt ∧
      env.deriveLoginKeypair secret salt = .ok kp ∧
      seg.token.body.publicKey = ⟨kp.salt, kp.publicKey, EdDSA⟩) ∧
    (∃ mk, env.createMasterKeyObject secret = .ok mk ∧
      seg.token.body.master = mk) ∧
    seg.token.body.state = MachineTokenActiveState := by
  unfold createToken at h
  cases hsalt : env.generateSalt with
  | error e => rw [hsalt] at h; exact absurd h (by simp)
  | ok salt =>
    rw [hsalt] at h
    dsimp only at h
    cases hkp : env.deriveLoginKeypair secret salt with
    | error e => rw [hkp] at h; exact absurd h (by simp)
    | ok keypair =>
      rw [hkp] at h
      dsimp only at h
      cases hmk : env.createMasterKeyObject secret with
      | error e => rw [hmk] at h; exact absurd h (by simp)
      | ok masterKey =>
        rw [hmk] at h
        dsimp only at h
        cases hid : env.newMutable _ with
        | error e => rw [hid] at h; exact absurd h (by simp)
        | ok tokenID =>
          rw [hid] at h
          dsimp only at h
          cases hsess : env.sessSetResult with
          | error e => rw [hsess] at h; exact absurd h (by simp)
          | ok u =>
            rw [hsess] at h
            dsimp only at h
            cases hgkp : env.generateKeyPairsResult with
            | error e => rw [hgkp] at h; exact absurd h (by simp)
            | ok kp =>
              rw [hgkp] at h
              dsimp only at h
              cases hgen : env.genKeypairsResult kp with
              | error e => rw [hgen] at h; exact absurd h (by simp)
              | ok keypairs =>
                rw [hgen] at h
                dsimp only at h
                cases Except.ok.inj h
                exact ⟨rfl, rfl, ⟨salt, keypair, rfl, hkp, rfl⟩,
                  ⟨masterKey, rfl, rfl⟩, rfl⟩

theorem createToken_body_fields_witness :
    (createToken
      { generateSalt := .ok "salt1"
        deriveLoginKeypair := fun sec salt => .ok ⟨salt, "pk-" ++ sec⟩
        createMasterKeyObject := fun sec => .ok ("mk-" ++ sec)
        newMutable := fun _ => .ok "tokid1"
        sessSetResult := .ok ()
        generateKeyPairsResult := .ok "kp"
        genKeypairsResult := fun _ => .ok ["sig", "enc"]
        sessionID := "creator1" }
      ⟨"machine1", ⟨"org1", "worker-1"⟩⟩ "sec1" = .ok
        ⟨⟨"tokid1", 1,
          ⟨"org1", "machine1", ⟨"salt1", "pk-" ++ "sec1", EdDSA⟩,
            "mk-" ++ "sec1", "creator1", MachineTokenActiveState⟩⟩,
          ["sig", "enc"]⟩) ∧
    (⟨⟨"tokid1", 1,
        ⟨"org1", "machine1", ⟨"salt1", "pk-" ++ "sec1", EdDSA⟩,
          "mk-" ++ "sec1", "creator1", MachineTokenActiveState⟩⟩,
        ["sig", "enc"]⟩ : MachineTokenCreationSegment).token.body.machineID =
      "machine1" :=
  ⟨rfl,
   (createToken_body_fields
     { generateSalt := .ok "salt1"
       deriveLoginKeypair := fun sec salt => .ok ⟨salt, "pk-" ++ sec⟩
       createMasterKeyObject := fun sec => .ok ("mk-" ++ sec)
       newMutable := fun _ => .ok "tokid1"
       sessSetResult := .ok ()
       generateKeyPairsResult := .ok "kp"
       genKeypairsResult := fun _ => .ok ["sig", "enc"]
       sessionID := "creator1" }
     ⟨"machine1", ⟨"org1", "worker-1"⟩⟩ "sec1"
     ⟨⟨"tokid1", 1,
       ⟨"org1", "machine1", ⟨"salt1", "pk-" ++ "sec1", EdDSA⟩,
         "mk-" ++ "sec1", "creator1", MachineTokenActiveState⟩⟩,
       ["sig", "enc"]⟩
     rfl).1⟩

end Torus

namespace Torus

theorem postV2Members_all_ok (env : EncodeTokenEnv) (v2 : List String)
    (h : ∀ m ∈ v2, env.postOne m = .ok ()) :
    postV2Members env v2 = (v2.map .memberPost, .ok ()) := by
  induction v2 with
  | nil => rfl
  | cons m rest ih =>
    have hm := h m (List.mem_cons_self _ _)
    have hrest := ih fun x hx => h x (List.mem_cons_of_mem _ hx)
    simp [postV2Members, hm, hrest]

theorem postV2Members_first_error (env : EncodeTokenEnv)
    (l₁ l₂ : List String) (m e : String)
    (hok : ∀ x ∈ l₁, env.postOne x = .ok ())
    (herr : env.postOne m = .error e) :
    postV2Members env (l₁ ++ m :: l₂) =
      ((l₁ ++ [m]).map .memberPost, .error e) := by
  induction l₁ with
  | nil => simp [postV2Members, herr]
  | cons x rest ih =>
    have hx := hok x (List.mem_cons_self _ _)
    have hrest := ih fun y hy => hok y (List.mem_cons_of_mem _ hy)
    simp [postV2Members, hx, hrest]

theorem postV2Members_no_batch (env : EncodeTokenEnv) (v2 : List String)
    (b : List String) : EncodeEvent.batchPost b ∉ (postV2Members env v2).1 := by
  induction v2 with
  | nil => simp [postV2Members]
  | cons m rest ih =>
    cases hm : env.postOne m with
    | error e => simp [postV2Members, hm]
    | ok u =>
      simp only [postV2Members, hm, List.mem_cons]
      rintro (h | h)
      · exact absurd h (by simp)
      · exact ih h

/-- Claim C7: given the derived memberships, `EncodeToken` posts all V1
keyring members as a single batch (and no batch at all when there are none),
posts each V2 member individually in order, and the first failing post aborts
the flow, returning that error with no later member posted. -/
theorem encodeToken_posting (env : EncodeTokenEnv) (v1 v2 : List String)
    (h : env.createMemberships = .ok (v1, v2)) :
    (v1 = [] → ∀ b, EncodeEvent.batchPost b ∉ (encodeToken env).1) ∧
    (∀ e, v1 ≠ [] → env.postBatch v1 = .error e →
      encodeToken env = ([.batchPost v1], .error e)) ∧
    ((∀ m ∈ v2, env.postOne m = .ok ()) → env.postBatch v1 = .ok () →
      encodeToken env =
        ((if v1.isEmpty then [] else [.batchPost v1]) ++ v2.map .memberPost,
         .ok ())) ∧
    (∀ l₁ l₂ m e, v2 = l₁ ++ m :: l₂ → (∀ x ∈ l₁, env.postOne x = .ok ()) →
      env.postOne m = .error e → env.postBatch v1 = .ok () →
      encodeToken env =
        ((if v1.isEmpty then [] else [.batchPost v1]) ++
          (l₁ ++ [m]).map .memberPost, .error e)) := by
  refine ⟨?_, ?_, ?_, ?_⟩
  · intro hv1 b
    subst hv1
    unfold encodeToken
    rw [h]
    dsimp only
    simp only [List.isEmpty_nil, if_true]
    exact postV2Members_no_batch env v2 b
  · intro e hne herr
    unfold encodeToken
    rw [h]
    dsimp only
    rw [if_neg (by simpa using hne), herr]
  · intro hall hbatch
    unfold encodeToken
    rw [h]
    dsimp only
    by_cases hv1 : v1.isEmpty
    · rw [if_pos hv1, if_pos hv1]
      simpa using postV2Members_all_ok env v2 hall
    · rw [if_neg hv1, if_neg hv1, hbatch]
      dsimp only
      rw [postV2Members_all_ok env v2 hall]
      simp
  · intro l₁ l₂ m e hv2 hok herr hbatch
    subst hv2
    unfold encodeToken
    rw [h]
    dsimp only
    by_cases hv1 : v1.isEmpty
    · rw [if_pos hv1, if_pos hv1]
      simpa using postV2Members_first_error env l₁ l₂ m e hok herr
    · rw [if_neg hv1, if_neg hv1, hbatch]
      dsimp only
      rw [postV2Members_first_error env l₁ l₂ m e hok herr]
      simp

theorem encodeToken_posting_witness :
    encodeToken
      { createMemberships := .ok (["k1", "k2"], ["m1", "m2"])
        postBatch := fun _ => .ok ()
        postOne := fun _ => .ok () } =
      ([.batchPost ["k1", "k2"], .memberPost "m1", .memberPost "m2"], .ok ()) ∧
    encodeToken
      { createMemberships := .ok (["k1"], ["m1", "m2", "m3"])
        postBatch := fun _ => .ok ()
        postOne := fun m => if m = "m2" then .error "post failed" else .ok () } =
      ([.batchPost ["k1"], .memberPost "m1", .memberPost "m2"],
       .error "post failed") := by
  constructor
  · have := (encodeToken_posting
      { createMemberships := .ok (["k1", "k2"], ["m1", "m2"])
        postBatch := fun _ => .ok ()
        postOne := fun _ => .ok () } ["k1", "k2"] ["m1", "m2"] rfl).2.2.1
      (fun m _ => rfl) rfl
    simpa using this
  · have := (encodeToken_posting
      { createMemberships := .ok (["k1"], ["m1", "m2", "m3"])
        postBatch := fun _ => .ok ()
        postOne := fun m => if m = "m2" then .error "post failed" else .ok () }
      ["k1"] ["m1", "m2", "m3"] rfl).2.2.2 ["m1"] ["m3"] "m2" "post failed" rfl
      (by intro x hx; simp at hx; subst hx; rfl) rfl rfl
    simpa using this

end Torus

namespace Torus

/-! ## CredentialsClient.Search / Get (api package) -/

/-- The query parameters `CredentialsClient.Search` builds: `pathexp`, the
constant `skip-decryption=true`, and one `team_id` per entry when team ids are
supplied. -/
def searchQuery (pathexp : String) (teamIDs : Option (List String)) :
    List (String × String) :=
  [("pathexp", pathexp), ("skip-decryption", "true")] ++
    (match teamIDs with
     | some ts => ts.map fun t => ("team_id", t)
     | none => [])

/-- The query parameters `CredentialsClient.Get` builds: only `path`. -/
def getQuery (path : String) : List (String × String) :=
  [("path", path)]

/-- `url.Values.Get`: first value recorded for the key. -/
def queryLookup (q : List (String × String)) (key : String) : Option String :=
  (q.find? fun p => p.1 = key).map Prod.snd

/-- A credential as far as decryption state is concerned: `encrypted` is true
while the body is still ciphertext. -/
structure Credential where
  name : String
  value : String
  encrypted : Bool
deriving DecidableEq, Repr

/-- Modelled from the spec: the daemon's `/credentials` GET handler is not in
the source tree.  Per the credential get/search description it lists the
credentials selected by the query and decrypts each with the keyring master
encryption key before returning them; decryption is abstracted as clearing the
`encrypted` flag.  The `skip-decryption` parameter that
`CredentialsClient.Search` sends asks the handler to return the credentials
undecrypted, as that client's own doc comment records. -/
def credentialsHandler (q : List (String × String)) (stored : List Credential) :
    List Credential :=
  if queryLookup q "skip-decryption" = some "true" then stored
  else stored.map fun c => { c with encrypted := false }

/-- `CredentialsClient.Search`: round trip through the daemon with the search
query. -/
def credentialsSearch (pathexp : String) (teamIDs : Option (List String))
    (stored : List Credential) : List Credential :=
  credentialsHandler (searchQuery pathexp teamIDs) stored

/-- `CredentialsClient.Get`: round trip through the daemon with the get
query. -/
def credentialsGet (path : String) (stored : List Credential) : List Credential :=
  credentialsHandler (getQuery path) stored

/-! ## writeEnvironmentFile (cmd package) -/

/-- `GlobalRoot`, the global root of the Torus config. -/
def GlobalRoot : String := "/etc/torus"

/-- `EnvironmentFile`, the environment file that stores machine
information. -/
def EnvironmentFile : String := "token.environment"

/-- The file produced by a write: its path, full contents, and mode bits. -/
structure EnvFile where
  path : String
  content : String
  mode : Nat
deriving DecidableEq, Repr

/-- Shallow embedding of `writeEnvironmentFile`: create
`GlobalRoot/EnvironmentFile` (failure of `os.Create` aborts), chmod it to
0600, and write the `TORUS_TOKEN_ID` line followed by the
`TORUS_TOKEN_SECRET` line. -/
def writeEnvironmentFile (token secret : String)
    (createResult : Except String Unit) : Except String EnvFile :=
  match createResult with
  | .error e => .error e
  | .ok _ =>
    .ok { path := GlobalRoot ++ "/" ++ EnvironmentFile
          content := "TORUS_TOKEN_ID=" ++ token ++ "\n" ++
            "TORUS_TOKEN_SECRET=" ++ secret ++ "\n"
          mode := 0o600 }

end Torus

namespace Torus

/-- Claim C8 (as stated): every credential search by path expression would
return decrypted bodies.  False: `Search` sends `skip-decryption=true`, so the
stored (still encrypted) credential comes back with its `encrypted` flag
set. -/
theorem credentialsSearch_not_decrypted :
    ¬ (∀ c ∈ credentialsSearch "/o/p/e/s/*/*" none [⟨"DB_URL", "ct", true⟩],
        c.encrypted = false) := by
  decide

/-- Claim C8 (amended): a get by path returns credentials with decrypted
bodies, while a search by path expression requests `skip-decryption=true` and
returns the credentials exactly as stored, without decrypting them. -/
theorem credentialsGet_decrypts_search_skips :
    (∀ path stored c, c ∈ credentialsGet path stored → c.encrypted = false) ∧
    (∀ pathexp teamIDs,
      queryLookup (searchQuery pathexp teamIDs) "skip-decryption" = some "true") ∧
    (∀ pathexp teamIDs stored,
      credentialsSearch pathexp teamIDs stored = stored) := by
  have hskip : ∀ pathexp teamIDs,
      queryLookup (searchQuery pathexp teamIDs) "skip-decryption" = some "true" := by
    intro pathexp teamIDs
    simp [queryLookup, searchQuery, List.find?]
  refine ⟨?_, hskip, ?_⟩
  · intro path stored c hc
    unfold credentialsGet credentialsHandler at hc
    rw [if_neg (by simp [queryLookup, getQuery, List.find?])] at hc
    obtain ⟨c', _, rfl⟩ := List.mem_map.mp hc
    rfl
  · intro pathexp teamIDs stored
    unfold credentialsSearch credentialsHandler
    rw [if_pos (hskip pathexp teamIDs)]

theorem credentialsGet_decrypts_search_skips_witness :
    ((⟨"DB_URL", "pt", false⟩ : Credential) ∈
        credentialsGet "/o/p/e/s/i/n" [⟨"DB_URL", "pt", true⟩] →
      (⟨"DB_URL", "pt", false⟩ : Credential).encrypted = false) ∧
    credentialsSearch "/o/p/e/s/*/*" none [⟨"DB_URL", "ct", true⟩] =
      [⟨"DB_URL", "ct", true⟩] :=
  ⟨credentialsGet_decrypts_search_skips.1 "/o/p/e/s/i/n" [⟨"DB_URL", "pt", true⟩] _,
   credentialsGet_decrypts_search_skips.2.2 "/o/p/e/s/*/*" none [⟨"DB_URL", "ct", true⟩]⟩

/-- Claim C9: a successful `writeEnvironmentFile` produces the file
`/etc/torus/token.environment` with mode 0600, containing exactly the
`TORUS_TOKEN_ID=<id>` line followed by the `TORUS_TOKEN_SECRET=<secret>`
line. -/
theorem writeEnvironmentFile_contents (token secret : String) :
    writeEnvironmentFile token secret (.ok ()) =
      .ok ⟨"/etc/torus/token.environment",
        "TORUS_TOKEN_ID=" ++ token ++ "\n" ++
          "TORUS_TOKEN_SECRET=" ++ secret ++ "\n",
        0o600⟩ := by
  unfold writeEnvironmentFile
  have hpath : GlobalRoot ++ "/" ++ EnvironmentFile = "/etc/torus/token.environment" := by
    decide
  rw [hpath]

end Torus
